import Mathlib

/-
Verification of the bit-banged LCD driver, framebuffer graphics, keypad
debouncing and Snake game engine (src/src/main.cpp, src/src/keypad.cpp,
src/include/keypad.h).

The C++ code is shallowly embedded:
* the framebuffer `uint8_t lcdBuffer[LCD_PAGES][LCD_WIDTH]` becomes a total
  function from (page, column) to the byte stored there; a write at an
  out-of-range index is visible as a change of that function outside the
  6 x 132 region (in C++ that write lands outside the array);
* machine integers become Nat/Int with explicit wraparound (mod 256 for
  uint8_t conversions, mod 2^32 for unsigned long subtraction) exactly at
  the places the C code can wrap;
* the two uint8_t-counter loops of lcdFillRect are modelled fuel-indexed,
  because for x1 = 255 the exit condition `cx <= x1` of a uint8_t counter
  can never fail and the C loop diverges; the Bool component records
  whether the loop exited normally;
* the GPIO writes of the bus driver become a trace of signal events;
* `random(0, n)` becomes an explicit oracle `rng : Nat -> Nat x Nat`
  giving the pair of values drawn on each placement attempt;
* `millis()` becomes an explicit `now` argument at each poll.
-/

namespace Lcd

/-- Display geometry constants from main.cpp. -/
def LCD_WIDTH : Nat := 132

def LCD_HEIGHT : Nat := 48

def LCD_PAGES : Nat := 6

/-- Framebuffer model: total map from (page, column) to the stored byte.
Cells with page < 6 and column < 132 are the real `lcdBuffer` array;
the function's values elsewhere model the memory that an out-of-bounds
array write would hit. -/
def FB : Type := Nat → Nat → Nat

/-- Store value `v` into framebuffer cell (page `p`, column `c`). -/
def writeCell (fb : FB) (p c v : Nat) : FB :=
  fun p' c' => if p' = p ∧ c' = c then v else fb p' c'

/-- lcdClearBuffer: memset the whole buffer to 0x00, as a transformer of
the current buffer. -/
def lcdClearBuffer (_fb : FB) : FB := fun _ _ => 0

/-- lcdSetPixel(x, y, on): clip if x >= 132 or y >= 48, else OR / AND-NOT
the bit (y mod 8) of the byte at page (y div 8), column x. -/
def lcdSetPixel (x y : Nat) (on_ : Bool) (fb : FB) : FB :=
  if x ≥ LCD_WIDTH ∨ y ≥ LCD_HEIGHT then fb
  else
    let page := y / 8
    let bit := y % 8
    if on_ then
      writeCell fb page x (fb page x ||| (1 <<< bit))
    else
      writeCell fb page x (fb page x &&& (255 - (1 <<< bit)))

/-- lcdGetPixel(x, y): false outside bounds, else test bit (y mod 8) of the
byte at page (y div 8), column x. -/
def lcdGetPixel (x y : Nat) (fb : FB) : Bool :=
  if x ≥ LCD_WIDTH ∨ y ≥ LCD_HEIGHT then false
  else (fb (y / 8) x &&& (1 <<< (y % 8))) != 0

end Lcd

namespace Keypad

/-- Key enumeration from keypad.h. -/
inductive Key where
  | KEY_NONE
  | KEY_UP
  | KEY_DOWN
  | KEY_LEFT
  | KEY_RIGHT
  | KEY_OK
deriving DecidableEq

/-- Debounce window in milliseconds (KEYPAD_DEBOUNCE_MS). -/
def KEYPAD_DEBOUNCE_MS : Nat := 30

/-- Modulus of the 32-bit unsigned long arithmetic used for millis(). -/
def ULONG_MOD : Nat := 2 ^ 32

/-- Wraparound subtraction `a - b` on unsigned long, as the C expression
`now - lastDebounceTime` computes it. -/
def ulSub (a b : Nat) : Nat :=
  (a + (ULONG_MOD - b % ULONG_MOD)) % ULONG_MOD

/-- Internal debounce state of keypad.cpp: lastStableKey and
lastDebounceTime. -/
structure DebounceState where
  lastStableKey : Key
  lastDebounceTime : Nat
deriving DecidableEq

/-- Initial debounce state (static initializers in keypad.cpp). -/
def initDebounce : DebounceState := ⟨Key.KEY_NONE, 0⟩

/-- readKeyDebounced, one poll: given the raw key sample `k` and the
current millis() value `now`, returns the key reported to the caller and
the updated internal state. -/
def readKeyDebounced (k : Key) (now : Nat) (s : DebounceState) :
    Key × DebounceState :=
  if k ≠ s.lastStableKey then
    if ulSub now s.lastDebounceTime ≥ KEYPAD_DEBOUNCE_MS then
      (k, ⟨k, now⟩)
    else
      (s.lastStableKey, s)
  else
    (s.lastStableKey, ⟨s.lastStableKey, now⟩)

end Keypad

namespace Lcd

/-- Logical signal event emitted by one digitalWrite in the bus driver:
which line changed and the level written. -/
inductive SigEvent where
  | cs (level : Bool)
  | dc (level : Bool)
  | sck (level : Bool)
  | mosi (level : Bool)
deriving DecidableEq

/-- lcdWriteByte(b): for i = 7 down to 0, clock low, data line set to
bit ((b >> i) & 1), clock high. The clock is left high afterwards. -/
def lcdWriteByte (b : Nat) : List SigEvent :=
  [7, 6, 5, 4, 3, 2, 1, 0].flatMap fun i =>
    [SigEvent.sck false, SigEvent.mosi (((b >>> i) &&& 1) != 0),
     SigEvent.sck true]

/-- lcdWriteCommand(cmd): CS low, D/C low, the byte, CS high. -/
def lcdWriteCommand (cmd : Nat) : List SigEvent :=
  [SigEvent.cs false, SigEvent.dc false] ++ lcdWriteByte cmd ++
    [SigEvent.cs true]

/-- lcdWriteData(data): CS low, D/C high, the byte, CS high. -/
def lcdWriteData (data : Nat) : List SigEvent :=
  [SigEvent.cs false, SigEvent.dc true] ++ lcdWriteByte data ++
    [SigEvent.cs true]

/-- Modelled from the spec: the signal sequence claimed for a one-byte
frame — chip-select asserted low, command/data select set (0 = command,
1 = data), then 8 clock pulses transmitting the bits of the byte
most-significant-bit first, where pulse k (k = 0..7) is clock low, data
line set to bit (7 - k), clock high, and finally chip-select released
high. This definition follows the spec's words; it is compared with the
driver functions above. -/
def specFrame (isData : Bool) (b : Nat) : List SigEvent :=
  [SigEvent.cs false, SigEvent.dc isData] ++
    ((List.range 8).flatMap fun k =>
      [SigEvent.sck false, SigEvent.mosi (b.testBit (7 - k)),
       SigEvent.sck true]) ++
    [SigEvent.cs true]

/-- Font selector enum from main.cpp. -/
inductive FontSize where
  | FONT_3X5
  | FONT_5X7
deriving DecidableEq

/-- Glyph width chosen by getGlyph: 3 columns for FONT_3X5, 5 for
FONT_5X7. -/
def glyphWidth : FontSize → Nat
  | FontSize.FONT_3X5 => 3
  | FontSize.FONT_5X7 => 5

/-- getGlyph(c, out, font, width): the list of column bytes produced for
byte value `c` (the char argument, taken as its 8-bit value). The font
tables font3x5/font5x7 are header data not present under src/, so they
are passed in as functions `f3`, `f5` from table index to byte; every
claim proved here holds for all table contents. For FONT_3X5, printable
c in [32, 126] reads 3 bytes at index (c - 32) * 3, anything else gets
the fixed fallback box 0x1F 0x11 0x1F; for FONT_5X7, 5 bytes are read at
index ((uint8_t)c) * 5. -/
def getGlyph (f3 f5 : Nat → Nat) (c : Nat) (font : FontSize) : List Nat :=
  match font with
  | FontSize.FONT_3X5 =>
    if 32 ≤ c ∧ c ≤ 126 then
      [f3 ((c - 32) * 3), f3 ((c - 32) * 3 + 1), f3 ((c - 32) * 3 + 2)]
    else
      [0x1F, 0x11, 0x1F]
  | FontSize.FONT_5X7 =>
    [f5 (c % 256 * 5), f5 (c % 256 * 5 + 1), f5 (c % 256 * 5 + 2),
     f5 (c % 256 * 5 + 3), f5 (c % 256 * 5 + 4)]

/-- lcdDrawChar(page, col, c, font, spacing): look up the glyph; return
the buffer unchanged if col + width > 132; else copy the glyph columns to
cells (page, col + i), then write `spacing` blank columns after the
glyph, stopping at the buffer edge. The page argument is used as an index
without any range check, exactly as in the C code. -/
def lcdDrawChar (f3 f5 : Nat → Nat) (page col c : Nat) (font : FontSize)
    (spacing : Nat) (fb : FB) : FB :=
  let w := glyphWidth font
  let g := getGlyph f3 f5 c font
  if col + w > LCD_WIDTH then fb
  else
    let fb1 := (List.range w).foldl
      (fun b i => if col + i < LCD_WIDTH then
          writeCell b page (col + i) (g.getD i 0)
        else b) fb
    (List.range spacing).foldl
      (fun b i => if col + w + i < LCD_WIDTH then
          writeCell b page (col + w + i) 0
        else b) fb1

end Lcd

namespace Lcd

/-- Inner column loop of lcdFillRect: `for (uint8_t cx = x; cx <= x1; ++cx)
lcdSetPixel(cx, cy)`. The counter is a uint8_t, so it advances by
(cx + 1) mod 256 and the loop exits only when cx > x1 — which can never
happen when x1 = 255. The fuel bounds how many iterations are unrolled;
the Bool is true iff the loop exited normally (so a false first component
with fuel-independent proofs means the C loop diverges). -/
def fillLoopX (fuel cx x1 cy : Nat) (fb : FB) : Bool × FB :=
  if cx ≤ x1 then
    match fuel with
    | 0 => (false, fb)
    | fuel' + 1 => fillLoopX fuel' ((cx + 1) % 256) x1 cy
        (lcdSetPixel cx cy true fb)
  else
    (true, fb)

/-- Outer row loop of lcdFillRect, same uint8_t counter semantics. Each
row runs the column loop with its own fuel. -/
def fillLoopY (fuelY fuelX cy y1 x x1 : Nat) (fb : FB) : Bool × FB :=
  if cy ≤ y1 then
    match fuelY with
    | 0 => (false, fb)
    | fuelY' + 1 =>
      let r := fillLoopX fuelX x x1 cy fb
      if r.1 then fillLoopY fuelY' fuelX ((cy + 1) % 256) y1 x x1 r.2
      else (false, r.2)
  else
    (true, fb)

/-- lcdFillRect(x, y, w, h) with explicit fuel: reject x >= 132 or
y >= 48; compute the clipped corner x1 = (x + w > 132) ? 131 : x + w - 1
where `x + w - 1` is converted to uint8_t, i.e. taken mod 256 (this is
the wrap to 255 when x = w = 0), same for y1; then run the nested pixel
loops. -/
def lcdFillRectFuel (fuel x y w h : Nat) (fb : FB) : Bool × FB :=
  if x ≥ LCD_WIDTH ∨ y ≥ LCD_HEIGHT then (true, fb)
  else
    let x1 := if x + w > LCD_WIDTH then LCD_WIDTH - 1 else (x + w + 255) % 256
    let y1 := if y + h > LCD_HEIGHT then LCD_HEIGHT - 1 else (y + h + 255) % 256
    fillLoopY fuel fuel y y1 x x1 fb

/-- lcdFillRect with fuel 257, enough to run any terminating instance of
either loop to completion (a uint8_t counter loop that exits does so
within 256 iterations). -/
def lcdFillRect (x y w h : Nat) (fb : FB) : Bool × FB :=
  lcdFillRectFuel 257 x y w h fb

end Lcd

namespace Snake

open Keypad

/-- Grid geometry derived in main.cpp: CELL = 4, HUD_HEIGHT = 8,
GRID_ROWS = (48 - 8) / 4 = 10, GRID_COLS = 132 / 4 = 33. -/
def GRID_ROWS : Nat := 10

def GRID_COLS : Nat := 33

/-- SNAKE_MAX = GRID_COLS * GRID_ROWS = 330. -/
def SNAKE_MAX : Nat := GRID_COLS * GRID_ROWS

/-- Grid cell, struct Point { uint8_t x; uint8_t y; }. -/
structure Point where
  x : Nat
  y : Nat
deriving DecidableEq

/-- Game state: the module-level mutable variables of main.cpp. The
snake array together with snakeLen becomes a list (head first, length
snakeLen). -/
structure GameState where
  snake : List Point
  dirX : Int
  dirY : Int
  nextDirX : Int
  nextDirY : Int
  food : Point
  gameOver : Bool
  paused : Bool
  okHeld : Bool
  score : Nat
  tickMs : Nat
deriving DecidableEq

/-- snakeOccupies(x, y): linear scan of the body for a cell equal to
(x, y). -/
def snakeOccupies (body : List Point) (x y : Nat) : Bool :=
  body.any fun p => p.x == x && p.y == y

/-- Row-major scan order of the fallback loop in placeFood: y over rows
outer, x over columns inner. -/
def gridCells : List (Nat × Nat) :=
  (List.range GRID_ROWS).flatMap fun y =>
    (List.range GRID_COLS).map fun x => (x, y)

/-- placeFood: up to 100 attempts draw (random(0, 33), random(0, 10))
from the oracle `rng` (attempt index to the drawn pair) and take the
first cell not occupied by the body; if all attempts fail, a row-major
scan takes the first free cell; if that also finds nothing the food is
left unchanged. -/
def placeFood (rng : Nat → Nat × Nat) (body : List Point) (old : Point) :
    Point :=
  match (List.range 100).findSome? (fun a =>
      if snakeOccupies body (rng a).1 (rng a).2 then none
      else some (⟨(rng a).1, (rng a).2⟩ : Point)) with
  | some p => p
  | none =>
    match gridCells.find? (fun c => ! snakeOccupies body c.1 c.2) with
    | some c => ⟨c.1, c.2⟩
    | none => old

/-- snakeReset: length-3 snake at mid-grid heading right, score 0, flags
cleared, base speed 180 ms, then placeFood. cx = 33 / 2 = 16,
cy = 10 / 2 = 5. The global food starts as {0, 0}. -/
def snakeReset (rng : Nat → Nat × Nat) : GameState :=
  let body : List Point := [⟨17, 5⟩, ⟨16, 5⟩, ⟨15, 5⟩]
  { snake := body
    dirX := 1, dirY := 0
    nextDirX := 1, nextDirY := 0
    food := placeFood rng body ⟨0, 0⟩
    gameOver := false, paused := false, okHeld := false
    score := 0
    tickMs := 180 }

/-- Edge wrap of stepGame for the x axis: if nx < 0 then GRID_COLS - 1;
if nx >= GRID_COLS then 0. -/
def wrapX (nx : Int) : Nat :=
  if nx < 0 then GRID_COLS - 1
  else if nx ≥ (GRID_COLS : Int) then 0
  else nx.toNat

/-- Edge wrap of stepGame for the y axis. -/
def wrapY (ny : Int) : Nat :=
  if ny < 0 then GRID_ROWS - 1
  else if ny ≥ (GRID_ROWS : Int) then 0
  else ny.toNat

/-- Head cell the next stepGame computes: current head plus the pending
direction (which stepGame commits into the active direction before using
it), wrapped at the edges. -/
def newHeadOf (s : GameState) : Point :=
  let head := s.snake.headD ⟨0, 0⟩
  ⟨wrapX ((head.x : Int) + s.nextDirX), wrapY ((head.y : Int) + s.nextDirY)⟩

/-- stepGame: return unchanged when gameOver or paused; commit the
pending direction; compute the wrapped new head; on collision with any
current body cell set gameOver and stop; else shift the body (dropping
the tail) and prepend the new head; if the head landed on the food, grow
by duplicating the tail (when below SNAKE_MAX), bump the score, speed up
down to the 80 ms floor, and relocate the food. Rendering only touches
the display buffer and is omitted. -/
def stepGame (rng : Nat → Nat × Nat) (s : GameState) : GameState :=
  if s.gameOver || s.paused then s
  else
    let s1 := { s with dirX := s.nextDirX, dirY := s.nextDirY }
    let head := s1.snake.headD ⟨0, 0⟩
    let nx := wrapX ((head.x : Int) + s1.dirX)
    let ny := wrapY ((head.y : Int) + s1.dirY)
    if s1.snake.any (fun p => p.x == nx && p.y == ny) then
      { s1 with gameOver := true }
    else
      let body := (⟨nx, ny⟩ : Point) :: s1.snake.dropLast
      if (⟨nx, ny⟩ : Point) = s1.food then
        let body2 := if body.length < SNAKE_MAX then
            body ++ [body.getLastD ⟨0, 0⟩]
          else body
        { s1 with
            snake := body2
            score := s1.score + 1
            tickMs := if s1.tickMs > 80 then s1.tickMs - 5 else s1.tickMs
            food := placeFood rng body2 s1.food }
      else
        { s1 with snake := body }

/-- handleInput: on gameOver, a fresh OK press restarts; otherwise a
fresh OK press toggles pause; when not paused, a direction key sets the
pending direction unless it reverses the active direction on its axis. -/
def handleInput (rng : Nat → Nat × Nat) (k : Key) (s : GameState) :
    GameState :=
  if s.gameOver then
    let s1 := if k = Key.KEY_OK ∧ ¬ s.okHeld then snakeReset rng else s
    { s1 with okHeld := k = Key.KEY_OK }
  else
    let s1 := if k = Key.KEY_OK ∧ ¬ s.okHeld then
        { s with paused := ¬ s.paused }
      else s
    let s2 := { s1 with okHeld := k = Key.KEY_OK }
    if s2.paused then s2
    else
      let s3 := if k = Key.KEY_UP ∧ s2.dirY ≠ 1 then
          { s2 with nextDirX := 0, nextDirY := -1 } else s2
      let s4 := if k = Key.KEY_DOWN ∧ s3.dirY ≠ -1 then
          { s3 with nextDirX := 0, nextDirY := 1 } else s3
      let s5 := if k = Key.KEY_LEFT ∧ s4.dirX ≠ 1 then
          { s4 with nextDirX := -1, nextDirY := 0 } else s4
      if k = Key.KEY_RIGHT ∧ s5.dirX ≠ -1 then
        { s5 with nextDirX := 1, nextDirY := 0 } else s5

end Snake

namespace Lcd

/-- Contents of the framebuffer at program start: the static array is
zero-initialized. -/
def initialBuffer : FB := fun _ _ => 0

/-- Bit test written the way the C code tests a framebuffer bit:
(v & (1 << i)) != 0 is exactly testBit. -/
lemma and_shl_ne_zero (a i : Nat) :
    ((a &&& (1 <<< i)) != 0) = a.testBit i := by
  rw [Nat.one_shiftLeft, Nat.and_two_pow]
  cases h : a.testBit i <;>
    simp [Nat.two_pow_pos, bne_iff_ne, Nat.pos_iff_ne_zero]

/-- In-bounds getPixel reads bit (y mod 8) of the byte at
(page y / 8, column x). -/
lemma lcdGetPixel_eq_testBit (x y : Nat) (fb : FB)
    (hx : x < LCD_WIDTH) (hy : y < LCD_HEIGHT) :
    lcdGetPixel x y fb = (fb (y / 8) x).testBit (y % 8) := by
  rw [lcdGetPixel, if_neg (by omega), and_shl_ne_zero]

/-- Setting a pixel in bounds makes its bit read back as set. -/
lemma lcdSetPixel_get_self (x y : Nat) (fb : FB)
    (hx : x < LCD_WIDTH) (hy : y < LCD_HEIGHT) :
    lcdGetPixel x y (lcdSetPixel x y true fb) = true := by
  rw [lcdSetPixel, if_neg (by omega)]
  rw [lcdGetPixel_eq_testBit _ _ _ hx hy]
  have hcell : writeCell fb (y / 8) x (fb (y / 8) x ||| (1 <<< (y % 8)))
      (y / 8) x = fb (y / 8) x ||| (1 <<< (y % 8)) := by
    simp [writeCell]
  rw [if_pos rfl, hcell, Nat.one_shiftLeft]
  simp [Nat.testBit_or, Nat.testBit_two_pow_self]

end Lcd

open Lcd Keypad Snake in
/-- C8: for every coordinate (x, y) with 0 <= x < width and
0 <= y < height, setPixel(x, y, true) followed by getPixel(x, y) returns
true, and setPixel(x, y, true) followed by clear() followed by
getPixel(x, y) returns false. -/
theorem lcdSetPixel_getPixel_roundtrip (x y : Nat) (fb : FB)
    (hx : x < LCD_WIDTH) (hy : y < LCD_HEIGHT) :
    lcdGetPixel x y (lcdSetPixel x y true fb) = true ∧
    lcdGetPixel x y (lcdClearBuffer (lcdSetPixel x y true fb)) = false := by
  refine ⟨lcdSetPixel_get_self x y fb hx hy, ?_⟩
  simp [lcdGetPixel, lcdClearBuffer]

open Lcd in
/-- C8 witness: the round trip at the concrete in-bounds pixel (5, 13)
on the startup buffer. -/
theorem lcdSetPixel_getPixel_roundtrip_witness :
    5 < LCD_WIDTH ∧ 13 < LCD_HEIGHT ∧
    lcdGetPixel 5 13 (lcdSetPixel 5 13 true initialBuffer) = true ∧
    lcdGetPixel 5 13 (lcdClearBuffer (lcdSetPixel 5 13 true initialBuffer))
      = false :=
  ⟨by decide, by decide,
    (lcdSetPixel_getPixel_roundtrip 5 13 initialBuffer (by decide)
      (by decide)).1,
    (lcdSetPixel_getPixel_roundtrip 5 13 initialBuffer (by decide)
      (by decide)).2⟩

open Lcd in
/-- C9: for every byte b, writeCommand(b) and writeData(b) produce
exactly the signal sequence: chip-select low, command/data select 0
(command) or 1 (data), then 8 clock pulses sending the bits of b
most-significant-bit first (each pulse: clock low, data line set to the
bit, clock high — the clock therefore idles high at the end), and
finally chip-select high. Stated as equality with specFrame, a second
definition written from the spec's words. -/
theorem lcdWriteCommand_lcdWriteData_frame (b : Nat) (hb : b < 256) :
    lcdWriteCommand b = specFrame false b ∧
    lcdWriteData b = specFrame true b := by
  have hbit : ∀ i, ((b >>> i) % 2 == 1) = b.testBit i := by
    intro i
    rw [Nat.testBit_to_div_mod, Nat.shiftRight_eq_div_pow]
    rcases Nat.mod_two_eq_zero_or_one (b / 2 ^ i) with h | h <;> simp [h]
  have hbit0 : (b % 2 == 1) = decide (b % 2 = 1) := by
    rcases Nat.mod_two_eq_zero_or_one b with h | h <;> simp [h]
  constructor <;>
    simp [lcdWriteCommand, lcdWriteData, lcdWriteByte, specFrame,
      List.range_succ, hbit, hbit0]

open Lcd in
/-- C9 witness: the frame equalities at the concrete byte 0xA5. -/
theorem lcdWriteCommand_lcdWriteData_frame_witness :
    (0xA5 : Nat) < 256 ∧
    lcdWriteCommand 0xA5 = specFrame false 0xA5 ∧
    lcdWriteData 0xA5 = specFrame true 0xA5 :=
  ⟨by decide,
    (lcdWriteCommand_lcdWriteData_frame 0xA5 (by decide)).1,
    (lcdWriteCommand_lcdWriteData_frame 0xA5 (by decide)).2⟩

namespace Lcd

/-- Reading a cell other than the one written is unchanged. -/
lemma writeCell_ne (fb : FB) (p c v p' q' : Nat)
    (h : p' ≠ p ∨ q' ≠ c) :
    writeCell fb p c v p' q' = fb p' q' := by
  rcases h with h | h <;> simp [writeCell, h]

/-- Guarded column-write loop of lcdDrawChar: a fold that only ever
writes cells (page, pos i) with pos i < 132 leaves every cell outside
that page, and every cell at column >= 132, unchanged. -/
lemma foldl_guardedWrite_out (page : Nat) (pos : Nat → Nat)
    (val : Nat → Nat) (l : List Nat) (fb : FB) (p q : Nat)
    (h : p ≠ page ∨ LCD_WIDTH ≤ q) :
    (l.foldl (fun b i => if pos i < LCD_WIDTH then
        writeCell b page (pos i) (val i) else b) fb) p q = fb p q := by
  induction l generalizing fb with
  | nil => rfl
  | cons i tl ih =>
    rw [List.foldl_cons, ih]
    by_cases hi : pos i < LCD_WIDTH
    · rw [if_pos hi, writeCell_ne]
      rcases h with h | h
      · exact Or.inl h
      · exact Or.inr (by omega)
    · rw [if_neg hi]

end Lcd

open Lcd in
/-- C1 (amended): for every in-range page (page < LCD_PAGES), column,
character, font and spacing, lcdDrawChar either leaves the framebuffer
unchanged or modifies only in-bounds cells — every cell at page >= 6 or
column >= 132 is untouched — and a placement that would overflow the
buffer width (col + glyph width > 132) is a silent no-op. The page
argument itself is not range-checked (see the counterexample), so the
guarantee needs page < LCD_PAGES. -/
theorem lcdDrawChar_clips (f3 f5 : Nat → Nat) (page col c : Nat)
    (font : FontSize) (spacing : Nat) (fb : FB) (hp : page < LCD_PAGES) :
    (∀ p q, LCD_PAGES ≤ p ∨ LCD_WIDTH ≤ q →
      lcdDrawChar f3 f5 page col c font spacing fb p q = fb p q) ∧
    (LCD_WIDTH < col + glyphWidth font →
      lcdDrawChar f3 f5 page col c font spacing fb = fb) := by
  constructor
  · intro p q hq
    have hpq : p ≠ page ∨ LCD_WIDTH ≤ q := by
      rcases hq with h | h
      · exact Or.inl (by omega)
      · exact Or.inr h
    rw [lcdDrawChar]
    by_cases hov : col + glyphWidth font > LCD_WIDTH
    · rw [if_pos hov]
    · rw [if_neg hov]
      rw [foldl_guardedWrite_out _ _ _ _ _ _ _ hpq,
        foldl_guardedWrite_out _ _ _ _ _ _ _ hpq]
  · intro hov
    rw [lcdDrawChar, if_pos hov]

open Lcd in
/-- C1 counterexample: the claim also asserts that a call with an
out-of-range page never writes outside the 6 x 132 framebuffer array,
but lcdDrawChar never checks the page argument: drawing character 65
with the 5x7 font at page 6, column 0 overwrites cell (6, 0), which lies
outside the array (on a buffer holding 7 everywhere, with all-zero font
tables, that cell changes). -/
theorem lcdDrawChar_page_overflow :
    lcdDrawChar (fun _ => 0) (fun _ => 0) 6 0 65 FontSize.FONT_5X7 1
      (fun _ _ => 7) 6 0 ≠ (fun _ _ => (7 : Nat)) 6 0 := by
  decide

open Lcd in
/-- C1 witness: the amended theorem at page 0, column 130, character 65,
5x7 font — an overflowing placement (130 + 5 > 132) that is a no-op, and
the untouched out-of-array cell (6, 0). -/
theorem lcdDrawChar_clips_witness :
    0 < LCD_PAGES ∧
    lcdDrawChar (fun _ => 0) (fun _ => 0) 0 130 65 FontSize.FONT_5X7 1
      (fun _ _ => 7) 6 0 = (fun _ _ => (7 : Nat)) 6 0 ∧
    LCD_WIDTH < 130 + glyphWidth FontSize.FONT_5X7 ∧
    lcdDrawChar (fun _ => 0) (fun _ => 0) 0 130 65 FontSize.FONT_5X7 1
      (fun _ _ => 7) = (fun _ _ => (7 : Nat)) :=
  ⟨by decide,
    (lcdDrawChar_clips (fun _ => 0) (fun _ => 0) 0 130 65
      FontSize.FONT_5X7 1 (fun _ _ => 7) (by decide)).1 6 0
      (Or.inl (by decide)),
    by decide,
    (lcdDrawChar_clips (fun _ => 0) (fun _ => 0) 0 130 65
      FontSize.FONT_5X7 1 (fun _ _ => 7) (by decide)).2 (by decide)⟩

namespace Keypad

/-- On a monotone 32-bit clock the wraparound subtraction is plain
subtraction. -/
lemma ulSub_eq_sub (a b : Nat) (h1 : b ≤ a) (h2 : a < ULONG_MOD) :
    ulSub a b = a - b := by
  simp only [ulSub, ULONG_MOD] at *
  omega

end Keypad

open Keypad in
/-- C2 (amended): the stable key never changes at a poll where less than
KEYPAD_DEBOUNCE_MS has elapsed since lastDebounceTime — the last poll at
which the raw sample equalled the stable key, or the last commit; when
the current raw sample differs from the stable key and at least the
window has elapsed, that sample is committed, and a subsequent poll with
the same raw sample reports it and leaves the stable key unchanged
(committed exactly once, with the timestamp refreshed while raw equals
stable). The window is measured from the last recorded change, not from
the moment the raw key itself last changed, so a raw key held for less
than the window can still be committed (see the counterexample). -/
theorem readKeyDebounced_window (s : DebounceState) (k : Key)
    (now t2 : Nat) (h1 : s.lastDebounceTime ≤ now) (h2 : now < ULONG_MOD) :
    (now - s.lastDebounceTime < KEYPAD_DEBOUNCE_MS →
      (readKeyDebounced k now s).2.lastStableKey = s.lastStableKey) ∧
    (k ≠ s.lastStableKey →
      KEYPAD_DEBOUNCE_MS ≤ now - s.lastDebounceTime →
      readKeyDebounced k now s = (k, ⟨k, now⟩)) ∧
    ((readKeyDebounced k now s).2.lastStableKey = k →
      readKeyDebounced k t2 (readKeyDebounced k now s).2 =
        (k, ⟨k, t2⟩)) := by
  rw [readKeyDebounced]
  by_cases hk : k = s.lastStableKey
  · rw [if_neg (by simp [hk])]
    refine ⟨fun _ => rfl, fun hne _ => absurd hk hne, fun hst => ?_⟩
    simp only at hst
    rw [readKeyDebounced, if_neg (by simp [hst]), hst]
  · rw [if_pos hk, ulSub_eq_sub _ _ h1 h2]
    by_cases hwin : KEYPAD_DEBOUNCE_MS ≤ now - s.lastDebounceTime
    · rw [if_pos hwin]
      refine ⟨fun hlt => absurd hwin (by omega), fun _ _ => rfl,
        fun _ => ?_⟩
      rw [readKeyDebounced, if_neg (by simp)]
    · rw [if_neg hwin]
      refine ⟨fun _ => rfl, fun _ hge => absurd hge hwin, fun hst => ?_⟩
      exact absurd hst.symm hk

open Keypad in
/-- C2 counterexample: the claim says a raw key held for less than the
stabilization window never becomes the stable key. Polling NONE at t=0
(stable NONE, timestamp refreshed to 0), UP at t=10 (10 ms elapsed,
below the window, no change), then DOWN at t=35 commits DOWN: 35 ms
have elapsed since the last recorded change even though DOWN itself has
been held at most 25 ms < 30 ms (the raw key was UP at t=10). -/
theorem readKeyDebounced_shortHeldCommit :
    (readKeyDebounced Key.KEY_DOWN 35
      (readKeyDebounced Key.KEY_UP 10
        (readKeyDebounced Key.KEY_NONE 0 initDebounce).2).2).1
      = Key.KEY_DOWN ∧
    (readKeyDebounced Key.KEY_UP 10
      (readKeyDebounced Key.KEY_NONE 0 initDebounce).2).1
      = Key.KEY_NONE ∧
    35 - 10 < KEYPAD_DEBOUNCE_MS := by
  decide

open Keypad in
/-- C2 witness: the amended theorem at the concrete state
(stable NONE, last change at 100) polled with raw UP at t=140, then
t=150: 40 ms >= the window, so UP is committed at t=140 and the second
poll reports UP without a further change. -/
theorem readKeyDebounced_window_witness :
    (100 : Nat) ≤ 140 ∧ (140 : Nat) < ULONG_MOD ∧
    readKeyDebounced Key.KEY_UP 140 ⟨Key.KEY_NONE, 100⟩ =
      (Key.KEY_UP, ⟨Key.KEY_UP, 140⟩) ∧
    readKeyDebounced Key.KEY_UP 150
      (readKeyDebounced Key.KEY_UP 140 ⟨Key.KEY_NONE, 100⟩).2 =
      (Key.KEY_UP, ⟨Key.KEY_UP, 150⟩) :=
  ⟨by decide, by decide,
    (readKeyDebounced_window ⟨Key.KEY_NONE, 100⟩ Key.KEY_UP 140 150
      (by decide) (by decide)).2.1 (by decide) (by decide),
    (readKeyDebounced_window ⟨Key.KEY_NONE, 100⟩ Key.KEY_UP 140 150
      (by decide) (by decide)).2.2 (by decide)⟩

namespace Snake

/-- Bridge between the coordinate comparison of the C collision loop and
point equality. -/
lemma point_beq_iff (p : Point) (a b : Nat) :
    ((p.x == a && p.y == b) = true) ↔ p = (⟨a, b⟩ : Point) := by
  cases p
  simp [Point.mk.injEq]

/-- The collision scan of stepGame succeeds exactly when the new head is
a current body cell. -/
lemma any_collision_iff (l : List Point) (a b : Nat) :
    (l.any fun p => p.x == a && p.y == b) = true ↔
      (⟨a, b⟩ : Point) ∈ l := by
  rw [List.any_eq_true]
  constructor
  · rintro ⟨p, hp, hpe⟩
    exact (point_beq_iff p a b).mp hpe ▸ hp
  · intro h
    exact ⟨⟨a, b⟩, h, (point_beq_iff _ a b).mpr rfl⟩

end Snake

open Keypad Snake in
/-- C4: when the newly computed head cell coincides with any cell of the
current body (the tail included, before it would be dropped), the tick
sets gameOver and leaves the snake body (hence its length), score, food
and tick interval unchanged: no body mutation happens that tick. -/
theorem stepGame_selfCollision (rng : Nat → Nat × Nat) (s : GameState)
    (hg : s.gameOver = false) (hp : s.paused = false)
    (hc : newHeadOf s ∈ s.snake) :
    (stepGame rng s).gameOver = true ∧
    (stepGame rng s).snake = s.snake ∧
    (stepGame rng s).score = s.score ∧
    (stepGame rng s).food = s.food ∧
    (stepGame rng s).tickMs = s.tickMs := by
  have hany : ∃ p ∈ s.snake, p.x = (newHeadOf s).x ∧ p.y = (newHeadOf s).y :=
    ⟨newHeadOf s, hc, rfl, rfl⟩
  simp only [newHeadOf, List.headD_eq_head?_getD] at hany
  rw [stepGame, if_neg (by simp [hg, hp])]
  simp [hany]

namespace Snake

/-- Concrete Running state for the C4 witness: a length-4 snake closed
into a square, head (1, 1), currently heading up, with a pending right
turn into its own tail cell (2, 1). -/
def gameW4 : GameState :=
  { snake := [⟨1, 1⟩, ⟨1, 2⟩, ⟨2, 2⟩, ⟨2, 1⟩]
    dirX := 0, dirY := -1
    nextDirX := 1, nextDirY := 0
    food := ⟨5, 5⟩
    gameOver := false, paused := false, okHeld := false
    score := 7
    tickMs := 100 }

end Snake

open Keypad Snake in
/-- C4 witness: a length-4 snake closed into a square, heading up with a
pending right turn into its own old tail cell (2, 1): the step sets
gameOver and changes none of body, score, food or speed. -/
theorem stepGame_selfCollision_witness :
    (gameW4.gameOver = false ∧ gameW4.paused = false ∧
      newHeadOf gameW4 ∈ gameW4.snake) ∧
    (stepGame (fun _ => (0, 0)) gameW4).gameOver = true ∧
    (stepGame (fun _ => (0, 0)) gameW4).snake = gameW4.snake ∧
    (stepGame (fun _ => (0, 0)) gameW4).score = gameW4.score ∧
    (stepGame (fun _ => (0, 0)) gameW4).food = gameW4.food ∧
    (stepGame (fun _ => (0, 0)) gameW4).tickMs = gameW4.tickMs :=
  ⟨⟨by decide, by decide, by decide⟩,
    stepGame_selfCollision (fun _ => (0, 0)) gameW4 (by decide) (by decide)
      (by decide)⟩

namespace Snake

/-- Sequential edge tests of stepGame equal reduction modulo GRID_COLS
for any displacement reachable from an in-range head and a unit
direction. -/
lemma wrapX_eq_emod (v : Int) (h1 : -1 ≤ v) (h2 : v ≤ 33) :
    ((wrapX v : Nat) : Int) = v % 33 := by
  simp only [wrapX, GRID_COLS]
  split_ifs <;> omega

/-- Same as wrapX_eq_emod for the y axis. -/
lemma wrapY_eq_emod (v : Int) (h1 : -1 ≤ v) (h2 : v ≤ 10) :
    ((wrapY v : Nat) : Int) = v % 10 := by
  simp only [wrapY, GRID_ROWS]
  split_ifs <;> omega

/-- A Running stepGame always commits the pending direction into the
active direction, whichever branch it then takes. -/
lemma stepGame_commitsDir (rng : Nat → Nat × Nat) (s : GameState)
    (hg : s.gameOver = false) (hp : s.paused = false) :
    (stepGame rng s).dirX = s.nextDirX ∧
    (stepGame rng s).dirY = s.nextDirY := by
  rw [stepGame, if_neg (by simp [hg, hp])]
  dsimp only
  split_ifs <;> exact ⟨rfl, rfl⟩

end Snake

open Keypad Snake in
/-- C6: on a Running tick, the new head cell is the current head plus
the active direction (the committed pending direction) with each axis
reduced modulo the grid dimension — GRID_COLS = 33 for x, GRID_ROWS = 10
for y — so motion is toroidal and there is no wall collision; the tick
then either ends in gameOver (self collision) or installs exactly this
cell as the new head. -/
theorem stepGame_toroidalWrap (rng : Nat → Nat × Nat) (s : GameState)
    (hg : s.gameOver = false) (hp : s.paused = false)
    (hx : (s.snake.headD ⟨0, 0⟩).x < GRID_COLS)
    (hy : (s.snake.headD ⟨0, 0⟩).y < GRID_ROWS)
    (hdir : (s.nextDirX = 1 ∧ s.nextDirY = 0) ∨
      (s.nextDirX = -1 ∧ s.nextDirY = 0) ∨
      (s.nextDirX = 0 ∧ s.nextDirY = 1) ∨
      (s.nextDirX = 0 ∧ s.nextDirY = -1)) :
    (((newHeadOf s).x : Int) =
      (((s.snake.headD ⟨0, 0⟩).x : Int) + s.nextDirX) % (GRID_COLS : Int)) ∧
    (((newHeadOf s).y : Int) =
      (((s.snake.headD ⟨0, 0⟩).y : Int) + s.nextDirY) % (GRID_ROWS : Int)) ∧
    ((stepGame rng s).gameOver = true ∨
      (stepGame rng s).snake.headD ⟨0, 0⟩ = newHeadOf s) := by
  have hx' : (s.snake.headD ⟨0, 0⟩).x < 33 := hx
  have hy' : (s.snake.headD ⟨0, 0⟩).y < 10 := hy
  have hgc : ((GRID_COLS : Nat) : Int) = 33 := rfl
  have hgr : ((GRID_ROWS : Nat) : Int) = 10 := rfl
  refine ⟨?_, ?_, ?_⟩
  · show ((wrapX (((s.snake.headD ⟨0, 0⟩).x : Int) + s.nextDirX) : Nat) :
      Int) = _
    rw [hgc, wrapX_eq_emod] <;>
      rcases hdir with ⟨h1, h2⟩ | ⟨h1, h2⟩ | ⟨h1, h2⟩ | ⟨h1, h2⟩ <;>
        rw [h1] <;> omega
  · show ((wrapY (((s.snake.headD ⟨0, 0⟩).y : Int) + s.nextDirY) : Nat) :
      Int) = _
    rw [hgr, wrapY_eq_emod] <;>
      rcases hdir with ⟨h1, h2⟩ | ⟨h1, h2⟩ | ⟨h1, h2⟩ | ⟨h1, h2⟩ <;>
        rw [h2] <;> omega
  · rw [stepGame, if_neg (by simp [hg, hp])]
    dsimp only
    split_ifs <;>
      first
        | exact Or.inl rfl
        | (right; simp [newHeadOf])

namespace Snake

/-- Concrete Running state for the C6 witness: head in the last column
(32, 5), heading right with pending right. -/
def gameW6 : GameState :=
  { snake := [⟨32, 5⟩, ⟨31, 5⟩, ⟨30, 5⟩]
    dirX := 1, dirY := 0
    nextDirX := 1, nextDirY := 0
    food := ⟨0, 9⟩
    gameOver := false, paused := false, okHeld := false
    score := 0
    tickMs := 180 }

end Snake

open Keypad Snake in
/-- C6 witness: heading right from the last column (32, 5), the wrapped
head is ((32 + 1) mod 33, 5) = (0, 5), and the step installs it (no
collision), i.e. the snake wraps to column 0 of the same row. -/
theorem stepGame_toroidalWrap_witness :
    (gameW6.gameOver = false ∧ gameW6.paused = false ∧
      (gameW6.snake.headD ⟨0, 0⟩).x < GRID_COLS ∧
      (gameW6.snake.headD ⟨0, 0⟩).y < GRID_ROWS) ∧
    (((newHeadOf gameW6).x : Int) =
      (((gameW6.snake.headD ⟨0, 0⟩).x : Int) + gameW6.nextDirX) %
        (GRID_COLS : Int)) ∧
    newHeadOf gameW6 = ⟨0, 5⟩ ∧
    (stepGame (fun _ => (0, 0)) gameW6).snake.headD ⟨0, 0⟩ = ⟨0, 5⟩ :=
  ⟨⟨by decide, by decide, by decide, by decide⟩,
    (stepGame_toroidalWrap (fun _ => (0, 0)) gameW6 (by decide) (by decide)
      (by decide) (by decide) (Or.inl ⟨by decide, by decide⟩)).1,
    by decide,
    by
      rcases (stepGame_toroidalWrap (fun _ => (0, 0)) gameW6 (by decide)
        (by decide) (by decide) (by decide)
        (Or.inl ⟨by decide, by decide⟩)).2.2 with h | h
      · exact absurd h (by decide)
      · rw [h]
        decide⟩

open Keypad Snake in
/-- C7: while the active direction is Right (dirX = 1), a Left key press
leaves the pending direction unchanged (the request reversing the
current axis is rejected) and does not touch the active direction; the
pending direction is committed to the active direction only at the tick
boundary, where the next stepGame installs it. -/
theorem handleInput_reversalRejected (rng rng2 : Nat → Nat × Nat)
    (s : GameState) (hg : s.gameOver = false) (hd : s.dirX = 1) :
    (handleInput rng Key.KEY_LEFT s).nextDirX = s.nextDirX ∧
    (handleInput rng Key.KEY_LEFT s).nextDirY = s.nextDirY ∧
    (handleInput rng Key.KEY_LEFT s).dirX = 1 ∧
    (handleInput rng Key.KEY_LEFT s).dirY = s.dirY ∧
    (s.paused = false →
      (stepGame rng2 (handleInput rng Key.KEY_LEFT s)).dirX = s.nextDirX ∧
      (stepGame rng2 (handleInput rng Key.KEY_LEFT s)).dirY = s.nextDirY) := by
  have hh : handleInput rng Key.KEY_LEFT s = { s with okHeld := false } := by
    rw [handleInput, if_neg (by simp [hg])]
    simp [hd]
  rw [hh]
  refine ⟨rfl, rfl, hd, rfl, fun hps => ?_⟩
  exact stepGame_commitsDir rng2 { s with okHeld := false } hg hps

namespace Snake

/-- Concrete Running state for the C7 witness: moving right with pending
right. -/
def gameW7 : GameState :=
  { snake := [⟨5, 5⟩, ⟨4, 5⟩, ⟨3, 5⟩]
    dirX := 1, dirY := 0
    nextDirX := 1, nextDirY := 0
    food := ⟨9, 9⟩
    gameOver := false, paused := false, okHeld := false
    score := 0
    tickMs := 180 }

end Snake

open Keypad Snake in
/-- C7 witness: pressing Left while moving Right leaves the pending
direction at (1, 0), and the following tick keeps the active direction
Right. -/
theorem handleInput_reversalRejected_witness :
    (gameW7.gameOver = false ∧ gameW7.dirX = 1 ∧ gameW7.paused = false) ∧
    (handleInput (fun _ => (0, 0)) Key.KEY_LEFT gameW7).nextDirX = 1 ∧
    (handleInput (fun _ => (0, 0)) Key.KEY_LEFT gameW7).nextDirY = 0 ∧
    (handleInput (fun _ => (0, 0)) Key.KEY_LEFT gameW7).dirX = 1 ∧
    (stepGame (fun _ => (0, 0))
      (handleInput (fun _ => (0, 0)) Key.KEY_LEFT gameW7)).dirX = 1 :=
  ⟨⟨by decide, by decide, by decide⟩,
    ((handleInput_reversalRejected (fun _ => (0, 0)) (fun _ => (0, 0))
      gameW7 (by decide) (by decide)).1).trans (by decide),
    ((handleInput_reversalRejected (fun _ => (0, 0)) (fun _ => (0, 0))
      gameW7 (by decide) (by decide)).2.1).trans (by decide),
    (handleInput_reversalRejected (fun _ => (0, 0)) (fun _ => (0, 0))
      gameW7 (by decide) (by decide)).2.2.1,
    (((handleInput_reversalRejected (fun _ => (0, 0)) (fun _ => (0, 0))
      gameW7 (by decide) (by decide)).2.2.2.2 (by decide)).1).trans
      (by decide)⟩

namespace Snake

/-- Oracle that always proposes cell (18, 5): placeFood under it puts
the food directly right of the freshly reset snake's head. -/
def rngC3 : Nat → Nat × Nat := fun _ => (18, 5)

end Snake

open Keypad Snake in
/-- C3 counterexample: one Running tick after snakeReset, with the food
at (18, 5) directly ahead, eats and grows — and the grown body ends in
the duplicated tail cell (16, 5), so the body cells are not pairwise
distinct after that completed tick. -/
theorem stepGame_growthDuplicatesTail :
    (stepGame rngC3 (snakeReset rngC3)).snake =
      [⟨18, 5⟩, ⟨17, 5⟩, ⟨16, 5⟩, ⟨16, 5⟩] ∧
    ¬ (stepGame rngC3 (snakeReset rngC3)).snake.Nodup := by
  decide

namespace Snake

/-- Shape of the body after one stepGame: unchanged (idle, pause or
collision tick), or the new head consed onto the shifted body, possibly
with the duplicated tail appended (growth tick); in the moving cases the
new head was not a current body cell. -/
lemma stepGame_snake_cases (rng : Nat → Nat × Nat) (s : GameState) :
    (stepGame rng s).snake = s.snake ∨
    ((⟨wrapX (((s.snake.headD ⟨0, 0⟩).x : Int) + s.nextDirX),
        wrapY (((s.snake.headD ⟨0, 0⟩).y : Int) + s.nextDirY)⟩ :
        Point) ∉ s.snake ∧
      ((stepGame rng s).snake =
          (⟨wrapX (((s.snake.headD ⟨0, 0⟩).x : Int) + s.nextDirX),
            wrapY (((s.snake.headD ⟨0, 0⟩).y : Int) + s.nextDirY)⟩ :
            Point) :: s.snake.dropLast ∨
        (stepGame rng s).snake =
          ((⟨wrapX (((s.snake.headD ⟨0, 0⟩).x : Int) + s.nextDirX),
            wrapY (((s.snake.headD ⟨0, 0⟩).y : Int) + s.nextDirY)⟩ :
            Point) :: s.snake.dropLast) ++
            [((⟨wrapX (((s.snake.headD ⟨0, 0⟩).x : Int) + s.nextDirX),
              wrapY (((s.snake.headD ⟨0, 0⟩).y : Int) + s.nextDirY)⟩ :
              Point) :: s.snake.dropLast).getLastD ⟨0, 0⟩])) := by
  rw [stepGame]
  by_cases hgp : (s.gameOver || s.paused) = true
  · rw [if_pos hgp]
    exact Or.inl rfl
  · rw [if_neg hgp]
    dsimp only
    split_ifs with h1 <;>
      first
        | exact Or.inl rfl
        | (refine Or.inr ⟨fun hmem =>
            h1 ((any_collision_iff s.snake _ _).mpr hmem), ?_⟩
           first
             | exact Or.inl rfl
             | exact Or.inr rfl)

end Snake

open Keypad Snake in
/-- C3 (amended): snakeReset establishes a pairwise-distinct body, and
stepGame preserves distinctness of the body with its final cell removed;
the full body is pairwise distinct after every tick except the growth
tick, which appends a duplicate of the tail cell (the duplicate is
consumed by the next shift): on a Running, collision-free, non-eating
tick the whole new body is pairwise distinct. -/
theorem stepGame_distinctBody (rng : Nat → Nat × Nat) (s : GameState)
    (h : s.snake.dropLast.Nodup) :
    (snakeReset rng).snake.Nodup ∧
    (stepGame rng s).snake.dropLast.Nodup ∧
    (s.gameOver = false → s.paused = false → newHeadOf s ∉ s.snake →
      newHeadOf s ≠ s.food → (stepGame rng s).snake.Nodup) := by
  have h0 : (snakeReset rng).snake.Nodup := by
    show ([(⟨17, 5⟩ : Point), ⟨16, 5⟩, ⟨15, 5⟩]).Nodup
    decide
  refine ⟨h0, ?_, ?_⟩
  · rcases stepGame_snake_cases rng s with he | ⟨hnin, he | he⟩
    · rw [he]
      exact h
    · rw [he]
      exact (List.dropLast_sublist _).nodup (List.nodup_cons.mpr
        ⟨fun hmem => hnin ((List.dropLast_sublist s.snake).subset hmem), h⟩)
    · rw [he, List.dropLast_concat]
      exact List.nodup_cons.mpr
        ⟨fun hmem => hnin ((List.dropLast_sublist s.snake).subset hmem), h⟩
  · intro hg hp hnin hfood
    rw [stepGame, if_neg (by simp [hg, hp])]
    dsimp only
    have hfood' : (⟨wrapX (((s.snake.headD ⟨0, 0⟩).x : Int) + s.nextDirX),
        wrapY (((s.snake.headD ⟨0, 0⟩).y : Int) + s.nextDirY)⟩ : Point) ≠
        s.food := hfood
    rw [if_neg (fun hc => hnin ((any_collision_iff s.snake _ _).mp hc)),
      if_neg hfood']
    exact List.nodup_cons.mpr
      ⟨fun hmem => hnin ((List.dropLast_sublist s.snake).subset hmem), h⟩

open Keypad Snake in
/-- C3 witness: the amended theorem across the growth tick of the
counterexample — the reset body's dropLast is distinct, and so is the
grown body's dropLast. -/
theorem stepGame_distinctBody_witness :
    (snakeReset rngC3).snake.dropLast.Nodup ∧
    (stepGame rngC3 (snakeReset rngC3)).snake.dropLast.Nodup :=
  ⟨by decide,
    (stepGame_distinctBody rngC3 (snakeReset rngC3) (by decide)).2.1⟩

namespace Snake

/-- A successful findSome? comes from some list element. -/
lemma exists_of_findSome?_attempt {α β : Type} (f : α → Option β)
    (l : List α) (b : β) (h : l.findSome? f = some b) :
    ∃ a ∈ l, f a = some b := by
  induction l with
  | nil => simp [List.findSome?] at h
  | cons x tl ih =>
    rw [List.findSome?_cons] at h
    cases hfx : f x with
    | some v =>
      rw [hfx] at h
      exact ⟨x, List.mem_cons_self x tl, hfx.trans h⟩
    | none =>
      rw [hfx] at h
      obtain ⟨a, ha, hfa⟩ := ih h
      exact ⟨a, List.mem_cons_of_mem x ha, hfa⟩

/-- Every in-grid cell appears in the row-major scan list. -/
lemma mem_gridCells (x y : Nat) (hx : x < GRID_COLS) (hy : y < GRID_ROWS) :
    (x, y) ∈ gridCells := by
  simp only [gridCells, List.mem_flatMap, List.mem_map, List.mem_range]
  exact ⟨y, hy, x, hx, rfl⟩

/-- The grid as a finite set of (column, row) pairs. -/
def gridSet : Finset (Nat × Nat) :=
  Finset.range GRID_COLS ×ˢ Finset.range GRID_ROWS

/-- Cells of the grid occupied by the body. -/
def occupiedCells (body : List Point) : Finset (Nat × Nat) :=
  gridSet.filter fun c => snakeOccupies body c.1 c.2

end Snake

open Keypad Snake in
/-- C5: for every snake configuration occupying at most
rows * cols - 1 = 329 grid cells, placeFood terminates (it is a total
function of the bounded attempt loop followed by the row-major scan) and
leaves the food at a cell not occupied by any snake body cell, for every
random oracle. -/
theorem placeFood_avoidsSnake (rng : Nat → Nat × Nat) (body : List Point)
    (old : Point)
    (hocc : (occupiedCells body).card ≤ GRID_COLS * GRID_ROWS - 1) :
    snakeOccupies body (placeFood rng body old).x
      (placeFood rng body old).y = false := by
  have hfree : ∃ c ∈ gridCells, snakeOccupies body c.1 c.2 = false := by
    by_contra hall
    push_neg at hall
    have hfill : occupiedCells body = gridSet := by
      apply Finset.filter_true_of_mem
      intro c hc
      simp only [gridSet, Finset.mem_product, Finset.mem_range] at hc
      have := hall (c.1, c.2) (mem_gridCells c.1 c.2 hc.1 hc.2)
      simpa using this
    rw [hfill, gridSet, Finset.card_product, Finset.card_range,
      Finset.card_range] at hocc
    simp only [GRID_COLS, GRID_ROWS] at hocc
    omega
  rw [placeFood]
  cases hfs : (List.range 100).findSome? (fun a =>
      if snakeOccupies body (rng a).1 (rng a).2 then none
      else some (⟨(rng a).1, (rng a).2⟩ : Point)) with
  | some p =>
    obtain ⟨a, _, hfa⟩ := exists_of_findSome?_attempt _ _ _ hfs
    by_cases hoc : snakeOccupies body (rng a).1 (rng a).2 = true
    · rw [if_pos hoc] at hfa
      exact absurd hfa (by simp)
    · rw [if_neg hoc] at hfa
      obtain rfl : (⟨(rng a).1, (rng a).2⟩ : Point) = p :=
        Option.some.inj hfa
      simpa using hoc
  | none =>
    cases hfd : gridCells.find? (fun c => ! snakeOccupies body c.1 c.2) with
    | some c =>
      have := List.find?_some hfd
      simpa using this
    | none =>
      obtain ⟨c, hc, hcf⟩ := hfree
      have := List.find?_eq_none.mp hfd c hc
      simp [hcf] at this

open Keypad Snake in
/-- C5 witness: an empty body occupies 0 <= 329 cells, and placeFood
with an oracle that always proposes (18, 5) returns an unoccupied cell. -/
theorem placeFood_avoidsSnake_witness :
    (occupiedCells []).card ≤ GRID_COLS * GRID_ROWS - 1 ∧
    snakeOccupies [] (placeFood (fun _ => (18, 5)) [] ⟨0, 0⟩).x
      (placeFood (fun _ => (18, 5)) [] ⟨0, 0⟩).y = false :=
  ⟨by decide,
    placeFood_avoidsSnake (fun _ => (18, 5)) [] ⟨0, 0⟩ (by decide)⟩

namespace Lcd

/-- With x1 = 255 the uint8_t column counter can never exceed x1, so the
loop never exits normally, for any amount of fuel: the C loop diverges. -/
lemma fillLoopX_wrap_diverges (fuel cx cy : Nat) (fb : FB)
    (h : cx ≤ 255) :
    (fillLoopX fuel cx 255 cy fb).1 = false := by
  induction fuel generalizing cx fb with
  | zero =>
    rw [fillLoopX, if_pos h]
  | succ f ih =>
    rw [fillLoopX, if_pos h]
    exact ih ((cx + 1) % 256) _ (by omega)

/-- Pixels already set stay set through one lcdSetPixel(_, _, true). -/
lemma lcdSetPixel_preserves (a b p q : Nat) (fb : FB)
    (h : lcdGetPixel p q fb = true) :
    lcdGetPixel p q (lcdSetPixel a b true fb) = true := by
  by_cases hpq : p ≥ LCD_WIDTH ∨ q ≥ LCD_HEIGHT
  · rw [lcdGetPixel, if_pos hpq] at h
    exact absurd h (by simp)
  · push_neg at hpq
    rw [lcdGetPixel_eq_testBit _ _ _ hpq.1 hpq.2] at h
    rw [lcdSetPixel]
    by_cases hab : a ≥ LCD_WIDTH ∨ b ≥ LCD_HEIGHT
    · rw [if_pos hab, lcdGetPixel_eq_testBit _ _ _ hpq.1 hpq.2]
      exact h
    · rw [if_neg hab, lcdGetPixel_eq_testBit _ _ _ hpq.1 hpq.2]
      rw [if_pos rfl]
      by_cases hcell : q / 8 = b / 8 ∧ p = a
      · have hv : writeCell fb (b / 8) a (fb (b / 8) a ||| (1 <<< (b % 8)))
            (q / 8) p = fb (b / 8) a ||| (1 <<< (b % 8)) := by
          simp [writeCell, hcell]
        rw [hv, Nat.one_shiftLeft, Nat.testBit_or, ← hcell.1, ← hcell.2, h]
        simp
      · rw [writeCell_ne _ _ _ _ _ _ (by tauto)]
        exact h

/-- Pixels already set stay set through the whole column loop. -/
lemma fillLoopX_preserves (fuel cx x1 cy p q : Nat) (fb : FB)
    (h : lcdGetPixel p q fb = true) :
    lcdGetPixel p q (fillLoopX fuel cx x1 cy fb).2 = true := by
  induction fuel generalizing cx fb with
  | zero =>
    rw [fillLoopX]
    split_ifs <;> exact h
  | succ f ih =>
    rw [fillLoopX]
    split_ifs with hle
    · exact ih ((cx + 1) % 256) _ (lcdSetPixel_preserves _ _ _ _ _ h)
    · exact h

/-- Starting at column cx with x1 = 255 and fuel at least 256 - cx, the
column loop drives the counter through every column up to 255 and sets
each in-bounds pixel of row cy. -/
lemma fillLoopX_fills (fuel cx cy px : Nat) (fb : FB)
    (h1 : cx ≤ px) (h2 : px ≤ 255) (h3 : px < LCD_WIDTH)
    (h4 : cy < LCD_HEIGHT) (h5 : 256 - cx ≤ fuel) :
    lcdGetPixel px cy (fillLoopX fuel cx 255 cy fb).2 = true := by
  induction fuel generalizing cx fb with
  | zero => omega
  | succ f ih =>
    have hcx : cx ≤ 255 := le_trans h1 h2
    rw [fillLoopX, if_pos hcx]
    by_cases heq : cx = px
    · subst heq
      exact fillLoopX_preserves _ _ _ _ _ _ _
        (lcdSetPixel_get_self cx cy fb h3 h4)
    · have hlt : cx < px := lt_of_le_of_ne h1 heq
      have hm : (cx + 1) % 256 = cx + 1 := Nat.mod_eq_of_lt (by omega)
      rw [hm]
      exact ih (cx + 1) _ (by omega) (by omega)

end Lcd

open Lcd in
/-- C10 (amended): lcdFillRect with width 0 at x = 0 is indeed not a
no-op, and the clipped right edge x + w - 1 does wrap to 255 in unsigned
8-bit arithmetic — but the resulting call does not fill the requested
rows and return: the inner loop's uint8_t counter can never exceed 255,
so for every fuel the loops never complete (the C call never returns),
while every in-bounds pixel of the single row y is set (with fuel >= 256
covering a full counter cycle). Rows beyond y are never reached. -/
theorem lcdFillRect_zeroWidthWrap (fuel y h : Nat) (fb : FB)
    (hh : 1 ≤ h) (hyh : y + h ≤ 48) :
    (lcdFillRectFuel fuel 0 y 0 h fb).1 = false ∧
    (256 ≤ fuel → ∀ px, px < 132 →
      lcdGetPixel px y (lcdFillRectFuel fuel 0 y 0 h fb).2 = true) := by
  have hy48 : y < LCD_HEIGHT := by
    show y < 48
    omega
  rw [lcdFillRectFuel, if_neg (by push_neg; exact ⟨by show 0 < 132; omega, hy48⟩)]
  have hx1 : (if 0 + 0 > LCD_WIDTH then LCD_WIDTH - 1
      else (0 + 0 + 255) % 256) = 255 := by
    rw [if_neg (by show ¬ 0 + 0 > 132; omega)]
  have hy1v : (if y + h > LCD_HEIGHT then LCD_HEIGHT - 1
      else (y + h + 255) % 256) = (y + h + 255) % 256 := by
    rw [if_neg (by show ¬ y + h > 48; omega)]
  rw [hx1, hy1v]
  have hyle : y ≤ (y + h + 255) % 256 := by omega
  cases fuel with
  | zero =>
    rw [fillLoopY, if_pos hyle]
    exact ⟨rfl, by omega⟩
  | succ f =>
    rw [fillLoopY, if_pos hyle]
    have hdiv := fillLoopX_wrap_diverges (f + 1) 0 y fb (by omega)
    simp only [hdiv, Bool.false_eq_true, if_false]
    refine ⟨trivial, fun hf px hpx => ?_⟩
    exact fillLoopX_fills (f + 1) 0 y px fb (by omega) (by omega)
      (by show px < 132; omega) hy48 (by omega)

set_option maxRecDepth 20000 in
set_option maxHeartbeats 4000000 in
open Lcd in
/-- C10 counterexample: the claim says lcdFillRect(0, 0, 0, 2) sets
every pixel in columns 0..131 of rows 0..1 (and completes). Running the
embedded call with a full cycle of fuel, the loop has not terminated
(first component false — and fillLoopX_wrap_diverges shows no fuel ever
changes that), and pixel (0, 1) of the second requested row is still
clear: the call hangs in the first row's column loop and never reaches
row 1. -/
theorem lcdFillRect_zeroWidth_counterexample :
    (lcdFillRect 0 0 0 2 initialBuffer).1 = false ∧
    lcdGetPixel 0 1 (lcdFillRect 0 0 0 2 initialBuffer).2 = false := by
  constructor
  · decide
  · decide

open Lcd in
/-- C10 witness: the amended theorem at y = 0, h = 1 with fuel 256: the
call never terminates normally and pixel (7, 0) of row 0 is set. -/
theorem lcdFillRect_zeroWidthWrap_witness :
    1 ≤ 1 ∧ 0 + 1 ≤ 48 ∧
    (lcdFillRectFuel 256 0 0 0 1 initialBuffer).1 = false ∧
    lcdGetPixel 7 0 (lcdFillRectFuel 256 0 0 0 1 initialBuffer).2 = true :=
  ⟨by decide, by decide,
    (lcdFillRect_zeroWidthWrap 256 0 1 initialBuffer (by decide)
      (by decide)).1,
    (lcdFillRect_zeroWidthWrap 256 0 1 initialBuffer (by decide)
      (by decide)).2 (by decide) 7 (by decide)⟩
